import Mathlib

/-!
Shallow embedding of the niruguard feature pipeline
(src/features/build_features.py, build_features_v2.py, build_features_v3.py).

Cells of the loaded CSV tables are modelled by `Scalar` (missing / numeric /
string, mirroring a pandas object column after read_csv).  Floats are embedded
as rationals.  Each Python function of the pipeline is translated to a Lean
definition of the same name where possible.
-/

set_option autoImplicit false

/-- A pandas cell after CSV load: NaN (missing), a number, or a string. -/
inductive Scalar where
  | missing : Scalar
  | num : ℚ → Scalar
  | str : String → Scalar
deriving DecidableEq, Repr

namespace Scalar

/-- pd.isna on a cell. -/
def isMissing : Scalar → Bool
  | .missing => true
  | _ => false

end Scalar

/-- Numeric value of a digit string (most significant first). -/
def natOfDigits (cs : List Char) : ℕ :=
  cs.foldl (fun n c => 10 * n + (c.toNat - 48)) 0

/-- Nonempty and all decimal digits. -/
def allDigits (cs : List Char) : Bool :=
  !cs.isEmpty && cs.all Char.isDigit

/-- Models the Python replace call that deletes every occurrence of the
currency marker KES, scanning left to right. -/
def stripKES : List Char → List Char
  | 'K' :: 'E' :: 'S' :: rest => stripKES rest
  | c :: rest => c :: stripKES rest
  | [] => []

/-- Models the Python replace calls that delete all commas and spaces. -/
def stripSeps (cs : List Char) : List Char :=
  cs.filter (fun c => !(c == ',' || c == ' '))

/-- Split a character list at every occurrence of a separator. -/
def splitOnChar (sep : Char) : List Char → List (List Char)
  | [] => [[]]
  | c :: rest =>
    match splitOnChar sep rest with
    | h :: t => if c == sep then [] :: h :: t else (c :: h) :: t
    | [] => [[c]]

/-- Mantissa of a decimal literal: digits with at most one point, at least one
digit overall (100, 100.5, .5, 5.). -/
def parseMantissa (cs : List Char) : Option ℚ :=
  match splitOnChar '.' cs with
  | [a] => if allDigits a then some ((natOfDigits a : ℚ)) else none
  | [a, b] =>
    if (a.isEmpty || a.all Char.isDigit) && (b.isEmpty || b.all Char.isDigit)
        && !(a.isEmpty && b.isEmpty) then
      some ((natOfDigits a : ℚ) + (natOfDigits b : ℚ) / (10 : ℚ) ^ b.length)
    else none
  | _ => none

/-- Signed integer exponent of a decimal literal. -/
def parseExponent (cs : List Char) : Option ℤ :=
  match cs with
  | '-' :: rest => if allDigits rest then some (-(natOfDigits rest : ℤ)) else none
  | '+' :: rest => if allDigits rest then some ((natOfDigits rest : ℤ)) else none
  | _ => if allDigits cs then some ((natOfDigits cs : ℤ)) else none

/-- Fold the exponent marker to lower case. -/
def normExpChar (c : Char) : Char := if c == 'E' then 'e' else c

/-- Models Python float() on decimal literals: optional sign, digits with an
optional decimal point, optional e-exponent.  The further spellings Python
accepts (inf, nan, digit underscores) are treated as parse failures here;
none of them occur in the data paths under verification. -/
def parseFloat (cs : List Char) : Option ℚ :=
  match cs with
  | '-' :: rest => (parseFloatBody rest).map (fun q => -q)
  | '+' :: rest => parseFloatBody rest
  | _ => parseFloatBody cs
where
  /-- Unsigned part: mantissa and optional exponent. -/
  parseFloatBody (body : List Char) : Option ℚ :=
    match splitOnChar 'e' (body.map normExpChar) with
    | [m] => parseMantissa m
    | [m, e] => do
      let mv ← parseMantissa m
      let ev ← parseExponent e
      some (mv * (10 : ℚ) ^ ev)
    | _ => none

/-- clean_currency of build_features.py (identical in v2/v3): missing becomes
0, numbers pass through unchanged, strings are stripped of the KES marker,
commas and spaces and parsed as a float, any parse failure becomes 0. -/
def clean_currency (x : Scalar) : ℚ :=
  match x with
  | .missing => 0
  | .num q => q
  | .str s => (parseFloat (stripSeps (stripKES s.data))).getD 0

/-- Leap-aware day count used to validate calendar dates. -/
def daysInMonth (y m : ℕ) : ℕ :=
  if m = 2 then (if y % 4 = 0 ∧ (¬y % 100 = 0 ∨ y % 400 = 0) then 29 else 28)
  else if m = 4 ∨ m = 6 ∨ m = 9 ∨ m = 11 then 30 else 31

/-- Models pd.to_datetime with coercing errors on the ISO YYYY-MM-DD strings
of the dataset: a valid calendar date becomes an order-preserving integer
key, anything else (missing, numeric, malformed or out-of-range strings)
becomes NaT, i.e. none. -/
def parseDate (x : Scalar) : Option ℤ :=
  match x with
  | .str s =>
    match splitOnChar '-' s.data with
    | [y, m, d] =>
      if allDigits y ∧ allDigits m ∧ allDigits d then
        let yn := natOfDigits y
        let mn := natOfDigits m
        let dn := natOfDigits d
        if 1 ≤ mn ∧ mn ≤ 12 ∧ 1 ≤ dn ∧ dn ≤ daysInMonth yn mn then
          some ((yn * 10000 + mn * 100 + dn : ℕ) : ℤ)
        else none
      else none
    | _ => none
  | _ => none

/-- Pandas comparison of two possibly-NaT timestamps: any NaT compares as
false. -/
def optLt : Option ℤ → Option ℤ → Bool
  | some a, some b => decide (a < b)
  | _, _ => false

/-- Python str() rendering of a cell, as a character list (NaN prints nan). -/
def pyStrData : Scalar → List Char
  | .missing => ['n', 'a', 'n']
  | .num q => (toString q).data
  | .str s => s.data

/-- ASCII lower-casing, as Python str.lower on the method strings. -/
def lowerChar (c : Char) : Char :=
  if 'A' ≤ c ∧ c ≤ 'Z' then Char.ofNat (c.toNat + 32) else c

/-- ASCII upper-casing, as the pandas str.upper on supplier names. -/
def upperChar (c : Char) : Char :=
  if 'a' ≤ c ∧ c ≤ 'z' then Char.ofNat (c.toNat - 32) else c

/-- Whitespace recognised by strip. -/
def isSpaceChar (c : Char) : Bool := c == ' ' || c == '\t' || c == '\n' || c == '\r'

/-- Python str.strip: drop leading and trailing whitespace. -/
def stripEnds (cs : List Char) : List Char :=
  ((cs.dropWhile isSpaceChar).reverse.dropWhile isSpaceChar).reverse

/-- Supplier-name normalisation of load_and_merge_v2 (str.strip().str.upper());
the pandas str accessor maps non-string cells to NaN. -/
def normNameCell (x : Scalar) : Scalar :=
  match x with
  | .str s => .str (String.mk ((stripEnds s.data).map upperChar))
  | _ => .missing

/-- The direct-procurement red flag: 1 iff str(x).lower() equals direct. -/
def is_direct_flag (x : Scalar) : ℕ :=
  if (pyStrData x).map lowerChar = "direct".data then 1 else 0

/-- The round-amount red flag: 1 iff the amount is strictly above 1000 and an
exact multiple of 1000 (the float mod-1000-is-0 test of the source). -/
def is_round_flag (q : ℚ) : ℕ :=
  if 1000 < q ∧ q.den = 1 ∧ q.num % 1000 = 0 then 1 else 0

/-- Row of main.csv restricted to usecols _link, tender_procurementMethod. -/
structure MainRow where
  link : Scalar
  method : Scalar
deriving DecidableEq, Repr

/-- Row of awards.csv restricted to usecols _link_main, value_amount. -/
structure AwardRow where
  link_main : Scalar
  value_amount : Scalar
deriving DecidableEq, Repr

/-- Row of contracts.csv restricted to _link_main, dateSigned,
period_startDate. -/
structure ContractRow where
  link_main : Scalar
  dateSigned : Scalar
  period_startDate : Scalar
deriving DecidableEq, Repr

/-- Row of awards_suppliers.csv restricted to _link_main, name (v2). -/
structure SupplierRow where
  link_main : Scalar
  name : Scalar
deriving DecidableEq, Repr

/-- Row of awards_suppliers.csv restricted to _link_main, id, name (v3);
the id column is renamed supplier_id by the loader. -/
structure SupplierRow3 where
  link_main : Scalar
  supplier_id : Scalar
  name : Scalar
deriving DecidableEq, Repr

/-- Accumulator pass of drop_duplicates: keep a row only when its key has not
been seen yet. -/
def dedupFirstAux {α : Type} (key : α → Scalar) : List Scalar → List α → List α
  | _, [] => []
  | seen, r :: rs =>
    if key r ∈ seen then dedupFirstAux key seen rs
    else r :: dedupFirstAux key (key r :: seen) rs

/-- pandas drop_duplicates on a key column with keep equal to first: for each
key value, only the first-encountered row (file order) survives. -/
def dedupFirst {α : Type} (key : α → Scalar) (l : List α) : List α :=
  dedupFirstAux key [] l

/-- pandas inner merge: every left row is paired with every key-matching right
row, in left order. -/
def innerJoin {α β : Type} (lk : α → Scalar) (rk : β → Scalar) :
    List α → List β → List (α × β)
  | [], _ => []
  | a :: as, rs =>
    (rs.filter (fun b => decide (rk b = lk a))).map (fun b => (a, b))
      ++ innerJoin lk rk as rs

/-- pandas left merge: a left row with no key-matching right row is kept with
null-filled right fields (none); otherwise it is paired with each match. -/
def leftJoin {α β : Type} (lk : α → Scalar) (rk : β → Scalar) :
    List α → List β → List (α × Option β)
  | [], _ => []
  | a :: as, rs =>
    (if (rs.filter (fun b => decide (rk b = lk a))).isEmpty then [(a, none)]
     else (rs.filter (fun b => decide (rk b = lk a))).map (fun b => (a, some b)))
      ++ leftJoin lk rk as rs

/-- A loaded CSV file: a header naming the columns and rows of named cells. -/
structure Csv where
  header : List String
  rows : List (List (String × Scalar))
deriving DecidableEq, Repr

/-- Cell of a row under a column name; absent names read as NaN. -/
def getCell (row : List (String × Scalar)) (c : String) : Scalar :=
  match row.find? (fun p => p.1 == c) with
  | some p => p.2
  | none => Scalar.missing

/-- pandas read_csv with usecols: a missing file raises FileNotFoundError and
a header lacking a required column raises a usecols ValueError; both surface
as errors here.  On success the table is restricted to the usecols. -/
def read_csv (file : Option Csv) (usecols : List String) : Except String Csv :=
  match file with
  | none => Except.error "FileNotFoundError"
  | some t =>
    if usecols.all (fun c => decide (c ∈ t.header)) then
      Except.ok
        { header := usecols
          rows := t.rows.map (fun r => usecols.map (fun c => (c, getCell r c))) }
    else Except.error "usecols do not match columns"

/-- The linked pre-feature record of v1: the columns of the merged dataframe
(main side then award side, as produced by pd.merge). -/
structure MergedV1 where
  link : Scalar
  method : Scalar
  link_main : Scalar
  value_amount : Scalar
deriving DecidableEq, Repr

/-- The cells of a merged v1 row, in dataframe column order. -/
def MergedV1.cells (r : MergedV1) : List Scalar :=
  [r.link, r.method, r.link_main, r.value_amount]

/-- load_and_merge of build_features.py: read main.csv and awards.csv with
their usecols, deduplicate awards on _link_main keeping the first, inner-join
main to awards on the link keys; any load-level error is caught and the
function returns None. -/
def load_and_merge (mainFile awardsFile : Option Csv) : Option (List MergedV1) :=
  match read_csv mainFile ["_link", "tender_procurementMethod"],
        read_csv awardsFile ["_link_main", "value_amount"] with
  | Except.ok m, Except.ok a =>
    some ((innerJoin MainRow.link AwardRow.link_main
        (m.rows.map (fun r =>
          { link := getCell r "_link"
            method := getCell r "tender_procurementMethod" }))
        (dedupFirst AwardRow.link_main
          (a.rows.map (fun r =>
            { link_main := getCell r "_link_main"
              value_amount := getCell r "value_amount" })))).map
      (fun p =>
        { link := p.1.link, method := p.1.method
          link_main := p.2.link_main, value_amount := p.2.value_amount }))
  | _, _ => none

/-- The linked record of v2: base inner join main-awards, then left-joined
timing and supplier parts (none = null-filled columns). -/
structure MergedV2 where
  main : MainRow
  award : AwardRow
  timing : Option ContractRow
  supplier : Option SupplierRow
deriving DecidableEq, Repr

/-- dateSigned column of the merged v2 frame (NaN when the left join found no
timing row). -/
def MergedV2.dateSignedCell (r : MergedV2) : Scalar :=
  match r.timing with
  | some c => c.dateSigned
  | none => Scalar.missing

/-- period_startDate column of the merged v2 frame. -/
def MergedV2.startCell (r : MergedV2) : Scalar :=
  match r.timing with
  | some c => c.period_startDate
  | none => Scalar.missing

/-- name column of the merged v2 frame. -/
def MergedV2.nameCell (r : MergedV2) : Scalar :=
  match r.supplier with
  | some s => s.name
  | none => Scalar.missing

/-- Name normalisation applied to a supplier row by load_and_merge_v2. -/
def normSupplierRow (s : SupplierRow) : SupplierRow :=
  { link_main := s.link_main, name := normNameCell s.name }

/-- The merging stage of load_and_merge_v2 (build_features_v2.py lines 43-69),
on already-read tables: deduplicate awards, contracts and (name-normalised)
suppliers on _link_main keeping the first row each, inner-join main to awards
on the link keys, then left-join timing and supplier data on _link_main. -/
def load_and_merge_v2 (mains : List MainRow) (awards : List AwardRow)
    (contracts : List ContractRow) (suppliers : List SupplierRow) :
    List MergedV2 :=
  ((leftJoin (fun p : (MainRow × AwardRow) × Option ContractRow => p.1.2.link_main)
      SupplierRow.link_main
      (leftJoin (fun p : MainRow × AwardRow => p.2.link_main) ContractRow.link_main
        (innerJoin MainRow.link AwardRow.link_main mains
          (dedupFirst AwardRow.link_main awards))
        (dedupFirst ContractRow.link_main contracts))
      (dedupFirst SupplierRow.link_main (suppliers.map normSupplierRow))).map
    (fun p => { main := p.1.1.1, award := p.1.1.2, timing := p.1.2, supplier := p.2 }))

/-- The linked record of v3 (supplier part carries the fingerprint id). -/
structure MergedV3 where
  main : MainRow
  award : AwardRow
  timing : Option ContractRow
  supplier : Option SupplierRow3
deriving DecidableEq, Repr

/-- dateSigned column of the merged v3 frame. -/
def MergedV3.dateSignedCell (r : MergedV3) : Scalar :=
  match r.timing with
  | some c => c.dateSigned
  | none => Scalar.missing

/-- period_startDate column of the merged v3 frame. -/
def MergedV3.startCell (r : MergedV3) : Scalar :=
  match r.timing with
  | some c => c.period_startDate
  | none => Scalar.missing

/-- supplier_id column of the merged v3 frame. -/
def MergedV3.idCell (r : MergedV3) : Scalar :=
  match r.supplier with
  | some s => s.supplier_id
  | none => Scalar.missing

/-- name column of the merged v3 frame. -/
def MergedV3.supplierNameCell (r : MergedV3) : Scalar :=
  match r.supplier with
  | some s => s.name
  | none => Scalar.missing

/-- The merging stage of load_and_merge_v3 (build_features_v3.py lines 38-61):
as in v2 but the supplier table keeps id and name and is not name-normalised. -/
def load_and_merge_v3 (mains : List MainRow) (awards : List AwardRow)
    (contracts : List ContractRow) (suppliers : List SupplierRow3) :
    List MergedV3 :=
  ((leftJoin (fun p : (MainRow × AwardRow) × Option ContractRow => p.1.2.link_main)
      SupplierRow3.link_main
      (leftJoin (fun p : MainRow × AwardRow => p.2.link_main) ContractRow.link_main
        (innerJoin MainRow.link AwardRow.link_main mains
          (dedupFirst AwardRow.link_main awards))
        (dedupFirst ContractRow.link_main contracts))
      (dedupFirst SupplierRow3.link_main suppliers)).map
    (fun p => { main := p.1.1.1, award := p.1.1.2, timing := p.1.2, supplier := p.2 }))

/-- Output row of engineer_features (v1), one column per final feature. -/
structure FeatRowV1 where
  amount : ℚ
  is_direct_procurement : ℕ
  is_round_amount : ℕ
  missing_data_count : ℕ
  risk_label : ℕ
deriving DecidableEq, Repr

/-- Output row of engineer_features_v2. -/
structure FeatRowV2 where
  amount : ℚ
  is_direct_procurement : ℕ
  is_round_amount : ℕ
  suspicious_timing : ℕ
  supplier_award_count : ℕ
  new_supplier_direct_deal : ℕ
  risk_label : ℕ
deriving DecidableEq, Repr

/-- Output row of engineer_features_v3: the v2 features plus the supplier id
and name columns appended for the dashboard. -/
structure FeatRowV3 where
  amount : ℚ
  is_direct_procurement : ℕ
  is_round_amount : ℕ
  suspicious_timing : ℕ
  supplier_award_count : ℕ
  new_supplier_direct_deal : ℕ
  risk_label : ℕ
  supplier_id : Scalar
  supplier_name : Scalar
deriving DecidableEq, Repr

/-- The saturating any-missing-data indicator of the v1 score
(missing_data_count at least 1). -/
def missingAnyInd (m : ℕ) : ℚ := if 1 ≤ m then 1 else 0

/-- The v1 synthetic risk score: direct times 2, round times 1.5, plus the
any-missing penalty. -/
def risk_score_v1 (direct round missing : ℕ) : ℚ :=
  (direct : ℚ) * 2 + (round : ℚ) * 1.5 + missingAnyInd missing

/-- The v2/v3 synthetic risk score: direct times 1.5, round times 1.0, timing
times 2.0, new-supplier-direct-deal times 2.5. -/
def risk_score_v2 (direct round timing nsd : ℕ) : ℚ :=
  (direct : ℚ) * 1.5 + (round : ℚ) * 1.0 + (timing : ℚ) * 2.0 + (nsd : ℚ) * 2.5

/-- Threshold step of the scorer: label 1 iff the score reaches the version
threshold. -/
def risk_label_of (threshold score : ℚ) : ℕ :=
  if threshold ≤ score then 1 else 0

/-- Per-row body of engineer_features (build_features.py): the four feature
columns and the thresholded risk label (threshold 1.5). -/
def featV1 (r : MergedV1) : FeatRowV1 :=
  let amount := clean_currency r.value_amount
  let direct := is_direct_flag r.method
  let round := is_round_flag amount
  let missing := (MergedV1.cells r).countP Scalar.isMissing
  { amount := amount
    is_direct_procurement := direct
    is_round_amount := round
    missing_data_count := missing
    risk_label := risk_label_of 1.5 (risk_score_v1 direct round missing) }

/-- engineer_features of build_features.py: one feature row per merged row. -/
def engineer_features (df : List MergedV1) : List FeatRowV1 :=
  df.map featV1

/-- The value_counts-then-map supplier history of v2: a missing name maps to
NaN and is filled with 1, a present name receives the number of rows of the
whole merged population carrying that same name. -/
def supplier_award_count_v2 (pop : List MergedV2) (k : Scalar) : ℕ :=
  if k = Scalar.missing then 1
  else (pop.filter (fun x => decide (MergedV2.nameCell x = k))).length

/-- Per-row body of engineer_features_v2, parametrised by the whole merged
population (the supplier count is a whole-dataset aggregate). -/
def featV2 (pop : List MergedV2) (r : MergedV2) : FeatRowV2 :=
  let amount := clean_currency r.award.value_amount
  let direct := is_direct_flag r.main.method
  let round := is_round_flag amount
  let timing := if optLt (parseDate r.startCell) (parseDate r.dateSignedCell) then 1 else 0
  let count := supplier_award_count_v2 pop r.nameCell
  let nsd := if count ≤ 3 ∧ direct = 1 then 1 else 0
  { amount := amount
    is_direct_procurement := direct
    is_round_amount := round
    suspicious_timing := timing
    supplier_award_count := count
    new_supplier_direct_deal := nsd
    risk_label := risk_label_of 2.0 (risk_score_v2 direct round timing nsd) }

/-- engineer_features_v2 of build_features_v2.py. -/
def engineer_features_v2 (df : List MergedV2) : List FeatRowV2 :=
  df.map (featV2 df)

/-- The v3 supplier history: counts are keyed on the supplier_id fingerprint;
a missing id maps to NaN and is filled with 1. -/
def supplier_award_count_v3 (pop : List MergedV3) (k : Scalar) : ℕ :=
  if k = Scalar.missing then 1
  else (pop.filter (fun x => decide (MergedV3.idCell x = k))).length

/-- Per-row body of engineer_features_v3. -/
def featV3 (pop : List MergedV3) (r : MergedV3) : FeatRowV3 :=
  let amount := clean_currency r.award.value_amount
  let direct := is_direct_flag r.main.method
  let round := is_round_flag amount
  let timing := if optLt (parseDate r.startCell) (parseDate r.dateSignedCell) then 1 else 0
  let count := supplier_award_count_v3 pop r.idCell
  let nsd := if count ≤ 3 ∧ direct = 1 then 1 else 0
  { amount := amount
    is_direct_procurement := direct
    is_round_amount := round
    suspicious_timing := timing
    supplier_award_count := count
    new_supplier_direct_deal := nsd
    risk_label := risk_label_of 2.0 (risk_score_v2 direct round timing nsd)
    supplier_id := r.idCell
    supplier_name := r.supplierNameCell }

/-- engineer_features_v3 of build_features_v3.py. -/
def engineer_features_v3 (df : List MergedV3) : List FeatRowV3 :=
  df.map (featV3 df)

/-- The final_features column list of build_features.py line 114. -/
def final_features_v1 : List String :=
  ["amount", "is_direct_procurement", "is_round_amount", "missing_data_count", "risk_label"]

/-- The final_features column list of build_features_v2.py lines 126-134. -/
def final_features_v2 : List String :=
  ["amount", "is_direct_procurement", "is_round_amount", "suspicious_timing",
   "supplier_award_count", "new_supplier_direct_deal", "risk_label"]

/-- The final_features column list of build_features_v3.py lines 113-121. -/
def final_features_v3 : List String :=
  ["amount", "is_direct_procurement", "is_round_amount", "suspicious_timing",
   "supplier_award_count", "new_supplier_direct_deal", "risk_label"]

/-- Columns of the persisted v3 table: final_features plus the supplier_id and
supplier_name columns appended at build_features_v3.py lines 125-126. -/
def output_columns_v3 : List String :=
  final_features_v3 ++ ["supplier_id", "supplier_name"]

/-- main of build_features.py: the engineered table is produced and saved only
when load_and_merge returned a dataframe; on a failed load nothing is
written (the returned none). -/
def main_v1 (mainFile awardsFile : Option Csv) : Option (List FeatRowV1) :=
  match load_and_merge mainFile awardsFile with
  | some df => some (engineer_features df)
  | none => none

theorem mem_dedupFirstAux {α : Type} (key : α → Scalar) (seen : List Scalar)
    (l : List α) (r : α) :
    r ∈ dedupFirstAux key seen l ↔
      key r ∉ seen ∧ l.find? (fun a => decide (key a = key r)) = some r := by
  induction l generalizing seen with
  | nil => simp [dedupFirstAux]
  | cons x xs ih =>
    by_cases hk : key x = key r
    · have hfind : List.find? (fun a => decide (key a = key r)) (x :: xs) = some x := by
        simp [List.find?_cons, hk]
      rw [hfind]
      by_cases hx : key x ∈ seen
      · rw [dedupFirstAux, if_pos hx, ih]
        constructor
        · rintro ⟨hns, _⟩; exact absurd (hk ▸ hx) hns
        · rintro ⟨hns, _⟩; exact absurd (hk ▸ hx) hns
      · rw [dedupFirstAux, if_neg hx]
        simp only [List.mem_cons, ih]
        constructor
        · rintro (rfl | ⟨hns, _⟩)
          · exact ⟨hk ▸ hx, rfl⟩
          · exact absurd (by simp [hk]) hns
        · rintro ⟨hns, hx2⟩
          exact Or.inl (Option.some_injective _ hx2).symm
    · have hfind : List.find? (fun a => decide (key a = key r)) (x :: xs)
          = List.find? (fun a => decide (key a = key r)) xs := by
        simp [List.find?_cons, hk]
      rw [hfind]
      by_cases hx : key x ∈ seen
      · rw [dedupFirstAux, if_pos hx, ih]
      · rw [dedupFirstAux, if_neg hx]
        simp only [List.mem_cons, ih, List.mem_cons]
        constructor
        · rintro (rfl | ⟨hns, hfind2⟩)
          · exact absurd rfl hk
          · exact ⟨fun h => hns (Or.inr h), hfind2⟩
        · rintro ⟨hns, hfind2⟩
          refine Or.inr ⟨?_, hfind2⟩
          rintro (h | h)
          · exact hk h.symm
          · exact hns h

theorem mem_dedupFirst {α : Type} (key : α → Scalar) (l : List α) (r : α) :
    r ∈ dedupFirst key l ↔ l.find? (fun a => decide (key a = key r)) = some r := by
  simpa [dedupFirst] using mem_dedupFirstAux key [] l r

theorem dedupFirstAux_keys_nodup {α : Type} (key : α → Scalar) (seen : List Scalar)
    (l : List α) :
    ((dedupFirstAux key seen l).map key).Nodup ∧
      ∀ a ∈ dedupFirstAux key seen l, key a ∉ seen := by
  induction l generalizing seen with
  | nil => simp [dedupFirstAux]
  | cons x xs ih =>
    by_cases hx : key x ∈ seen
    · rw [dedupFirstAux, if_pos hx]; exact ih seen
    · rw [dedupFirstAux, if_neg hx]
      obtain ⟨hnd, hout⟩ := ih (key x :: seen)
      refine ⟨?_, ?_⟩
      · simp only [List.map_cons, List.nodup_cons]
        refine ⟨?_, hnd⟩
        intro hmem
        obtain ⟨a, ha, hka⟩ := List.mem_map.mp hmem
        exact hout a ha (hka ▸ List.mem_cons_self _ _)
      · intro a ha
        rcases List.mem_cons.mp ha with rfl | ha
        · exact hx
        · exact fun h => hout a ha (List.mem_cons_of_mem _ h)

theorem dedupFirst_keys_nodup {α : Type} (key : α → Scalar) (l : List α) :
    ((dedupFirst key l).map key).Nodup :=
  (dedupFirstAux_keys_nodup key [] l).1

theorem dedupFirstAux_subset {α : Type} (key : α → Scalar) (seen : List Scalar)
    (l : List α) : dedupFirstAux key seen l ⊆ l := by
  induction l generalizing seen with
  | nil => simp [dedupFirstAux]
  | cons x xs ih =>
    by_cases hx : key x ∈ seen
    · rw [dedupFirstAux, if_pos hx]
      exact (ih seen).trans (List.subset_cons_self _ _)
    · rw [dedupFirstAux, if_neg hx]
      exact List.cons_subset_cons x (ih (key x :: seen))

theorem dedupFirst_subset {α : Type} (key : α → Scalar) (l : List α) :
    dedupFirst key l ⊆ l :=
  dedupFirstAux_subset key [] l

theorem dedupFirstAux_eq_self {α : Type} (key : α → Scalar) (seen : List Scalar)
    (l : List α) (h1 : (l.map key).Nodup) (h2 : ∀ a ∈ l, key a ∉ seen) :
    dedupFirstAux key seen l = l := by
  induction l generalizing seen with
  | nil => simp [dedupFirstAux]
  | cons x xs ih =>
    simp only [List.map_cons, List.nodup_cons] at h1
    rw [dedupFirstAux, if_neg (h2 x (List.mem_cons_self _ _))]
    congr 1
    refine ih (key x :: seen) h1.2 ?_
    intro a ha
    simp only [List.mem_cons]
    rintro (h | h)
    · exact h1.1 (h ▸ List.mem_map_of_mem key ha)
    · exact h2 a (List.mem_cons_of_mem _ ha) h

theorem dedupFirst_idem {α : Type} (key : α → Scalar) (l : List α) :
    dedupFirst key (dedupFirst key l) = dedupFirst key l :=
  dedupFirstAux_eq_self key [] (dedupFirst key l) (dedupFirst_keys_nodup key l)
    (by simp)

theorem mem_innerJoin {α β : Type} (lk : α → Scalar) (rk : β → Scalar)
    (ls : List α) (rs : List β) (p : α × β) :
    p ∈ innerJoin lk rk ls rs ↔ p.1 ∈ ls ∧ p.2 ∈ rs ∧ rk p.2 = lk p.1 := by
  induction ls with
  | nil => simp [innerJoin]
  | cons a as ih =>
    simp only [innerJoin, List.mem_append, ih, List.mem_map, List.mem_filter,
      List.mem_cons]
    constructor
    · rintro (⟨b, ⟨hb, hkey⟩, rfl⟩ | ⟨h1, h2, h3⟩)
      · exact ⟨Or.inl rfl, hb, of_decide_eq_true hkey⟩
      · exact ⟨Or.inr h1, h2, h3⟩
    · rintro ⟨(h0 | h1), h2, h3⟩
      · refine Or.inl ⟨p.2, ⟨h2, decide_eq_true (h0 ▸ h3)⟩, ?_⟩
        exact Prod.ext h0.symm rfl
      · exact Or.inr ⟨h1, h2, h3⟩

theorem length_filter_key_le_one {β : Type} (rk : β → Scalar) (rs : List β)
    (h : (rs.map rk).Nodup) (k : Scalar) :
    (rs.filter (fun b => decide (rk b = k))).length ≤ 1 := by
  induction rs with
  | nil => simp
  | cons b bs ih =>
    simp only [List.map_cons, List.nodup_cons] at h
    by_cases hb : rk b = k
    · rw [List.filter_cons_of_pos (by simp [hb])]
      have hnil : bs.filter (fun x => decide (rk x = k)) = [] := by
        rw [List.filter_eq_nil_iff]
        intro x hx hkx
        exact h.1 (hb ▸ (of_decide_eq_true hkx) ▸ List.mem_map_of_mem rk hx)
      simp [hnil]
    · rw [List.filter_cons_of_neg (by simp [hb])]
      exact ih h.2

theorem leftJoin_length {α β : Type} (lk : α → Scalar) (rk : β → Scalar)
    (ls : List α) (rs : List β) (h : (rs.map rk).Nodup) :
    (leftJoin lk rk ls rs).length = ls.length := by
  induction ls with
  | nil => simp [leftJoin]
  | cons a as ih =>
    rw [leftJoin, List.length_append, ih, List.length_cons]
    have hblock : (if (rs.filter (fun b => decide (rk b = lk a))).isEmpty
        then [(a, (none : Option β))]
        else (rs.filter (fun b => decide (rk b = lk a))).map (fun b => (a, some b))).length
        = 1 := by
      by_cases he : (rs.filter (fun b => decide (rk b = lk a))).isEmpty
      · rw [if_pos he]; rfl
      · rw [if_neg he, List.length_map]
        have hle := length_filter_key_le_one rk rs h (lk a)
        have hne : rs.filter (fun b => decide (rk b = lk a)) ≠ [] := by
          intro h0
          exact he (List.isEmpty_iff.mpr h0)
        have hpos : 0 < (rs.filter (fun b => decide (rk b = lk a))).length :=
          List.length_pos.mpr hne
        omega
    omega

theorem leftJoin_fst_mem {α β : Type} (lk : α → Scalar) (rk : β → Scalar)
    (ls : List α) (rs : List β) (q : α × Option β)
    (hq : q ∈ leftJoin lk rk ls rs) : q.1 ∈ ls := by
  induction ls with
  | nil => simp [leftJoin] at hq
  | cons a as ih =>
    rw [leftJoin, List.mem_append] at hq
    rcases hq with hq | hq
    · by_cases he : (rs.filter (fun b => decide (rk b = lk a))).isEmpty
      · rw [if_pos he] at hq
        simp only [List.mem_singleton] at hq
        simp [hq]
      · rw [if_neg he] at hq
        obtain ⟨b, _, rfl⟩ := List.mem_map.mp hq
        exact List.mem_cons_self _ _
    · exact List.mem_cons_of_mem _ (ih hq)

theorem mem_leftJoin_snd {α β : Type} (lk : α → Scalar) (rk : β → Scalar)
    (ls : List α) (rs : List β) (q : α × Option β)
    (hq : q ∈ leftJoin lk rk ls rs) :
    (∀ b, q.2 = some b → b ∈ rs ∧ rk b = lk q.1) ∧
      ((∀ b ∈ rs, rk b ≠ lk q.1) → q.2 = none) := by
  induction ls with
  | nil => simp [leftJoin] at hq
  | cons a as ih =>
    rw [leftJoin, List.mem_append] at hq
    rcases hq with hq | hq
    · by_cases he : (rs.filter (fun b => decide (rk b = lk a))).isEmpty
      · rw [if_pos he] at hq
        simp only [List.mem_singleton] at hq
        subst hq
        exact ⟨fun b hb => by simp at hb, fun _ => rfl⟩
      · rw [if_neg he] at hq
        obtain ⟨b, hb, rfl⟩ := List.mem_map.mp hq
        obtain ⟨hbrs, hbk⟩ := List.mem_filter.mp hb
        refine ⟨?_, ?_⟩
        · rintro b2 hb2
          simp only [Option.some.injEq] at hb2
          exact hb2 ▸ ⟨hbrs, of_decide_eq_true hbk⟩
        · intro hall
          exact absurd (of_decide_eq_true hbk) (hall b hbrs)
    · exact ih hq

theorem is_direct_flag_le_one (x : Scalar) : is_direct_flag x ≤ 1 := by
  unfold is_direct_flag; split <;> omega

theorem is_round_flag_le_one (q : ℚ) : is_round_flag q ≤ 1 := by
  unfold is_round_flag; split <;> omega

theorem missingAnyInd_nonneg (m : ℕ) : 0 ≤ missingAnyInd m := by
  unfold missingAnyInd; split <;> norm_num

theorem risk_score_v1_eq (d rnd m : ℕ) :
    risk_score_v1 d rnd m
      = 2.0 * (d : ℚ) + 1.5 * (rnd : ℚ) + 1.0 * (if 1 ≤ m then (1 : ℚ) else 0) := by
  unfold risk_score_v1 missingAnyInd
  norm_num
  ring

theorem risk_score_v2_eq (d rnd t n : ℕ) :
    risk_score_v2 d rnd t n
      = 1.5 * (d : ℚ) + 1.0 * (rnd : ℚ) + 2.0 * (t : ℚ) + 2.5 * (n : ℚ) := by
  unfold risk_score_v2
  ring

theorem featV1_fields (r : MergedV1) :
    (featV1 r).is_direct_procurement = is_direct_flag r.method ∧
      (featV1 r).is_round_amount = is_round_flag (clean_currency r.value_amount) ∧
      (featV1 r).missing_data_count = (MergedV1.cells r).countP Scalar.isMissing ∧
      (featV1 r).risk_label
        = risk_label_of 1.5 (risk_score_v1 (is_direct_flag r.method)
            (is_round_flag (clean_currency r.value_amount))
            ((MergedV1.cells r).countP Scalar.isMissing)) := by
  refine ⟨rfl, rfl, rfl, rfl⟩

/-- C1: every v1 feature row carries risk_label 1 exactly when the weighted
indicator sum 2.0 direct + 1.5 round + 1.0 missingAny reaches the 1.5
threshold (missingAny saturating at one missing field), and every v2/v3 row
carries risk_label 1 exactly when 1.5 direct + 1.0 round + 2.0 timing +
2.5 newSupplierDirectDeal reaches the 2.0 threshold. -/
theorem C1_risk_score_formula :
    (∀ (df : List MergedV1), ∀ fr ∈ engineer_features df,
      fr.risk_label = if (1.5 : ℚ) ≤ 2.0 * (fr.is_direct_procurement : ℚ)
          + 1.5 * (fr.is_round_amount : ℚ)
          + 1.0 * (if 1 ≤ fr.missing_data_count then (1 : ℚ) else 0)
        then 1 else 0) ∧
    (∀ (df : List MergedV2), ∀ fr ∈ engineer_features_v2 df,
      fr.risk_label = if (2.0 : ℚ) ≤ 1.5 * (fr.is_direct_procurement : ℚ)
          + 1.0 * (fr.is_round_amount : ℚ) + 2.0 * (fr.suspicious_timing : ℚ)
          + 2.5 * (fr.new_supplier_direct_deal : ℚ)
        then 1 else 0) ∧
    (∀ (df : List MergedV3), ∀ fr ∈ engineer_features_v3 df,
      fr.risk_label = if (2.0 : ℚ) ≤ 1.5 * (fr.is_direct_procurement : ℚ)
          + 1.0 * (fr.is_round_amount : ℚ) + 2.0 * (fr.suspicious_timing : ℚ)
          + 2.5 * (fr.new_supplier_direct_deal : ℚ)
        then 1 else 0) := by
  refine ⟨?_, ?_, ?_⟩
  · intro df fr hfr
    obtain ⟨r, hr, rfl⟩ := List.mem_map.mp hfr
    show risk_label_of 1.5 (risk_score_v1 _ _ _) = _
    rw [risk_label_of, risk_score_v1_eq]
    rfl
  · intro df fr hfr
    obtain ⟨r, hr, rfl⟩ := List.mem_map.mp hfr
    show risk_label_of 2.0 (risk_score_v2 _ _ _ _) = _
    rw [risk_label_of, risk_score_v2_eq]
    rfl
  · intro df fr hfr
    obtain ⟨r, hr, rfl⟩ := List.mem_map.mp hfr
    show risk_label_of 2.0 (risk_score_v2 _ _ _ _) = _
    rw [risk_label_of, risk_score_v2_eq]
    rfl

/-- Witness for C1: a one-row direct-procurement population, the v1 formula
instantiated there. -/
theorem C1_risk_score_formula_witness :
    (featV1 ⟨Scalar.str "t1", Scalar.str "Direct", Scalar.str "t1", Scalar.num 5000⟩).risk_label
      = if (1.5 : ℚ) ≤ 2.0 * ((featV1 ⟨Scalar.str "t1", Scalar.str "Direct",
              Scalar.str "t1", Scalar.num 5000⟩).is_direct_procurement : ℚ)
          + 1.5 * ((featV1 ⟨Scalar.str "t1", Scalar.str "Direct",
              Scalar.str "t1", Scalar.num 5000⟩).is_round_amount : ℚ)
          + 1.0 * (if 1 ≤ (featV1 ⟨Scalar.str "t1", Scalar.str "Direct",
              Scalar.str "t1", Scalar.num 5000⟩).missing_data_count then (1 : ℚ) else 0)
        then 1 else 0 :=
  C1_risk_score_formula.1 [⟨Scalar.str "t1", Scalar.str "Direct", Scalar.str "t1",
    Scalar.num 5000⟩] _ (by simp [engineer_features])

theorem risk_label_of_binary (t s : ℚ) : risk_label_of t s = 0 ∨ risk_label_of t s = 1 := by
  unfold risk_label_of; split <;> simp

/-- C10: single-flag threshold saturation.  In v1 a row with the direct flag
set is always labelled 1 (2.0 at least 1.5) and a row with the round flag set
is always labelled 1 (1.5 at least 1.5); in v2/v3 a row with suspicious
timing set is always labelled 1 (2.0 at least 2.0) and a row with the
new-supplier-direct-deal flag set is always labelled 1 (its weight 2.5 alone
reaches 2.0, and it indeed entails the direct flag). -/
theorem C10_single_flag_saturation :
    (∀ (df : List MergedV1), ∀ fr ∈ engineer_features df,
      fr.is_direct_procurement = 1 → fr.risk_label = 1) ∧
    (∀ (df : List MergedV1), ∀ fr ∈ engineer_features df,
      fr.is_round_amount = 1 → fr.risk_label = 1) ∧
    (∀ (df : List MergedV2), ∀ fr ∈ engineer_features_v2 df,
      fr.suspicious_timing = 1 → fr.risk_label = 1) ∧
    (∀ (df : List MergedV2), ∀ fr ∈ engineer_features_v2 df,
      fr.new_supplier_direct_deal = 1 →
        fr.is_direct_procurement = 1 ∧ fr.risk_label = 1) ∧
    (∀ (df : List MergedV3), ∀ fr ∈ engineer_features_v3 df,
      fr.suspicious_timing = 1 → fr.risk_label = 1) ∧
    (∀ (df : List MergedV3), ∀ fr ∈ engineer_features_v3 df,
      fr.new_supplier_direct_deal = 1 →
        fr.is_direct_procurement = 1 ∧ fr.risk_label = 1) := by
  have hv1 : ∀ (d rnd m : ℕ), d = 1 ∨ rnd = 1 →
      risk_label_of 1.5 (risk_score_v1 d rnd m) = 1 := by
    intro d rnd m h
    have h1 : (0 : ℚ) ≤ (d : ℚ) := Nat.cast_nonneg d
    have h2 : (0 : ℚ) ≤ (rnd : ℚ) := Nat.cast_nonneg rnd
    have h3 := missingAnyInd_nonneg m
    rw [risk_label_of, if_pos]
    unfold risk_score_v1
    rcases h with rfl | rfl
    · push_cast
      nlinarith [h2, h3]
    · push_cast
      nlinarith [h1, h3]
  have hv2 : ∀ (d rnd t n : ℕ), t = 1 ∨ n = 1 →
      risk_label_of 2.0 (risk_score_v2 d rnd t n) = 1 := by
    intro d rnd t n h
    have h1 : (0 : ℚ) ≤ (d : ℚ) := Nat.cast_nonneg d
    have h2 : (0 : ℚ) ≤ (rnd : ℚ) := Nat.cast_nonneg rnd
    have h3 : (0 : ℚ) ≤ (t : ℚ) := Nat.cast_nonneg t
    have h4 : (0 : ℚ) ≤ (n : ℚ) := Nat.cast_nonneg n
    rw [risk_label_of, if_pos]
    unfold risk_score_v2
    rcases h with rfl | rfl
    · push_cast
      nlinarith [h1, h2, h4]
    · push_cast
      nlinarith [h1, h2, h3]
  refine ⟨?_, ?_, ?_, ?_, ?_, ?_⟩
  · intro df fr hfr h
    obtain ⟨r, hr, rfl⟩ := List.mem_map.mp hfr
    exact hv1 _ _ _ (Or.inl h)
  · intro df fr hfr h
    obtain ⟨r, hr, rfl⟩ := List.mem_map.mp hfr
    exact hv1 _ _ _ (Or.inr h)
  · intro df fr hfr h
    obtain ⟨r, hr, rfl⟩ := List.mem_map.mp hfr
    exact hv2 _ _ _ _ (Or.inl h)
  · intro df fr hfr h
    obtain ⟨r, hr, rfl⟩ := List.mem_map.mp hfr
    have hd : is_direct_flag r.main.method = 1 := by
      by_contra hd
      have : (featV2 df r).new_supplier_direct_deal = 0 := by
        show (if supplier_award_count_v2 df r.nameCell ≤ 3
            ∧ is_direct_flag r.main.method = 1 then 1 else 0) = 0
        rw [if_neg]
        rintro ⟨_, hc⟩
        exact hd hc
      omega
    exact ⟨hd, hv2 _ _ _ _ (Or.inr h)⟩
  · intro df fr hfr h
    obtain ⟨r, hr, rfl⟩ := List.mem_map.mp hfr
    exact hv2 _ _ _ _ (Or.inl h)
  · intro df fr hfr h
    obtain ⟨r, hr, rfl⟩ := List.mem_map.mp hfr
    have hd : is_direct_flag r.main.method = 1 := by
      by_contra hd
      have : (featV3 df r).new_supplier_direct_deal = 0 := by
        show (if supplier_award_count_v3 df r.idCell ≤ 3
            ∧ is_direct_flag r.main.method = 1 then 1 else 0) = 0
        rw [if_neg]
        rintro ⟨_, hc⟩
        exact hd hc
      omega
    exact ⟨hd, hv2 _ _ _ _ (Or.inr h)⟩

/-- Witness for C10: the v1 direct-flag instance on a one-row population. -/
theorem C10_single_flag_saturation_witness :
    (featV1 ⟨Scalar.str "t1", Scalar.str "direct", Scalar.missing,
        Scalar.num 700⟩).risk_label = 1 :=
  C10_single_flag_saturation.1
    [⟨Scalar.str "t1", Scalar.str "direct", Scalar.missing, Scalar.num 700⟩] _
    (by simp [engineer_features]) (by decide)

/-- C9: in v1, the missing_data_count of the i-th feature row is the number
of null cells of the i-th linked, pre-feature merged record (its four source
columns), counted before any feature column exists. -/
theorem C9_missing_data_count (df : List MergedV1) (i : ℕ) (r : MergedV1)
    (hr : df[i]? = some r) :
    ∃ fr, (engineer_features df)[i]? = some fr ∧
      fr.missing_data_count
        = ([r.link, r.method, r.link_main, r.value_amount].countP Scalar.isMissing) := by
  refine ⟨featV1 r, ?_, rfl⟩
  rw [engineer_features, List.getElem?_map, hr, Option.map_some']

/-- Witness for C9 on a two-row merged table whose second row has two null
cells. -/
theorem C9_missing_data_count_witness :
    ∃ fr, (engineer_features
        [⟨Scalar.str "a", Scalar.str "open", Scalar.str "a", Scalar.num 10⟩,
         ⟨Scalar.str "b", Scalar.missing, Scalar.str "b", Scalar.missing⟩])[1]?
      = some fr ∧
      fr.missing_data_count
        = ([Scalar.str "b", Scalar.missing, Scalar.str "b",
            Scalar.missing].countP Scalar.isMissing) :=
  C9_missing_data_count
    [⟨Scalar.str "a", Scalar.str "open", Scalar.str "a", Scalar.num 10⟩,
     ⟨Scalar.str "b", Scalar.missing, Scalar.str "b", Scalar.missing⟩] 1
    ⟨Scalar.str "b", Scalar.missing, Scalar.str "b", Scalar.missing⟩ (by decide)

/-- C6: in v2 and v3, the suspicious_timing of the i-th feature row is 1
exactly when both date cells of the i-th merged record parse successfully and
the parsed period start strictly precedes the parsed signing date; whenever
either date fails to parse the flag is 0. -/
theorem C6_suspicious_timing :
    (∀ (df : List MergedV2) (i : ℕ) (r : MergedV2), df[i]? = some r →
      ∃ fr, (engineer_features_v2 df)[i]? = some fr ∧
        (fr.suspicious_timing = 1 ↔
          ∃ a b, parseDate r.dateSignedCell = some a ∧
            parseDate r.startCell = some b ∧ b < a) ∧
        ((parseDate r.dateSignedCell = none ∨ parseDate r.startCell = none) →
          fr.suspicious_timing = 0)) ∧
    (∀ (df : List MergedV3) (i : ℕ) (r : MergedV3), df[i]? = some r →
      ∃ fr, (engineer_features_v3 df)[i]? = some fr ∧
        (fr.suspicious_timing = 1 ↔
          ∃ a b, parseDate r.dateSignedCell = some a ∧
            parseDate r.startCell = some b ∧ b < a) ∧
        ((parseDate r.dateSignedCell = none ∨ parseDate r.startCell = none) →
          fr.suspicious_timing = 0)) := by
  constructor
  · intro df i r hr
    refine ⟨featV2 df r, ?_, ?_, ?_⟩
    · rw [engineer_features_v2, List.getElem?_map, hr, Option.map_some']
    · show (if optLt (parseDate r.startCell) (parseDate r.dateSignedCell)
          then 1 else 0) = 1 ↔ _
      cases hpd : parseDate r.dateSignedCell with
      | none =>
        cases hps : parseDate r.startCell <;> simp [optLt]
      | some a =>
        cases hps : parseDate r.startCell with
        | none => simp [optLt]
        | some b => simp [optLt]
    · intro h
      show (if optLt (parseDate r.startCell) (parseDate r.dateSignedCell)
          then 1 else 0) = 0
      rcases h with h | h <;> rw [h]
      · cases parseDate r.startCell <;> simp [optLt]
      · simp [optLt]
  · intro df i r hr
    refine ⟨featV3 df r, ?_, ?_, ?_⟩
    · rw [engineer_features_v3, List.getElem?_map, hr, Option.map_some']
    · show (if optLt (parseDate r.startCell) (parseDate r.dateSignedCell)
          then 1 else 0) = 1 ↔ _
      cases hpd : parseDate r.dateSignedCell with
      | none =>
        cases hps : parseDate r.startCell <;> simp [optLt]
      | some a =>
        cases hps : parseDate r.startCell with
        | none => simp [optLt]
        | some b => simp [optLt]
    · intro h
      show (if optLt (parseDate r.startCell) (parseDate r.dateSignedCell)
          then 1 else 0) = 0
      rcases h with h | h <;> rw [h]
      · cases parseDate r.startCell <;> simp [optLt]
      · simp [optLt]

/-- Witness for C6: a merged row whose start date precedes its signing date
(flag 1 expected by the equivalence). -/
theorem C6_suspicious_timing_witness :
    ∃ fr, (engineer_features_v2
        [⟨⟨Scalar.str "a", Scalar.str "open"⟩, ⟨Scalar.str "a", Scalar.num 10⟩,
          some ⟨Scalar.str "a", Scalar.str "2021-06-15", Scalar.str "2021-06-01"⟩,
          none⟩])[0]?
      = some fr ∧
      (fr.suspicious_timing = 1 ↔
        ∃ a b, parseDate (MergedV2.dateSignedCell
            ⟨⟨Scalar.str "a", Scalar.str "open"⟩, ⟨Scalar.str "a", Scalar.num 10⟩,
              some ⟨Scalar.str "a", Scalar.str "2021-06-15", Scalar.str "2021-06-01"⟩,
              none⟩) = some a ∧
          parseDate (MergedV2.startCell
            ⟨⟨Scalar.str "a", Scalar.str "open"⟩, ⟨Scalar.str "a", Scalar.num 10⟩,
              some ⟨Scalar.str "a", Scalar.str "2021-06-15", Scalar.str "2021-06-01"⟩,
              none⟩) = some b ∧ b < a) ∧
      ((parseDate (MergedV2.dateSignedCell
            ⟨⟨Scalar.str "a", Scalar.str "open"⟩, ⟨Scalar.str "a", Scalar.num 10⟩,
              some ⟨Scalar.str "a", Scalar.str "2021-06-15", Scalar.str "2021-06-01"⟩,
              none⟩) = none ∨
        parseDate (MergedV2.startCell
            ⟨⟨Scalar.str "a", Scalar.str "open"⟩, ⟨Scalar.str "a", Scalar.num 10⟩,
              some ⟨Scalar.str "a", Scalar.str "2021-06-15", Scalar.str "2021-06-01"⟩,
              none⟩) = none) → fr.suspicious_timing = 0) :=
  C6_suspicious_timing.1 _ 0 _ (by decide)

/-- C2: the supplier_award_count of the i-th feature row equals the number of
rows of the whole merged population sharing the i-th row's resolved supplier
identity (the normalised name column in v2, the supplier_id fingerprint in
v3), with a missing identity defaulting to 1; consequently in a population of
N rows all sharing one resolvable identity every feature row reports N. -/
theorem C2_supplier_award_count :
    (∀ (df : List MergedV2) (i : ℕ) (r : MergedV2), df[i]? = some r →
      ∃ fr, (engineer_features_v2 df)[i]? = some fr ∧
        fr.supplier_award_count
          = if r.nameCell = Scalar.missing then 1
            else (df.filter (fun x => decide (MergedV2.nameCell x = r.nameCell))).length) ∧
    (∀ (df : List MergedV2) (k : Scalar), k ≠ Scalar.missing →
      (∀ r ∈ df, MergedV2.nameCell r = k) →
      ∀ fr ∈ engineer_features_v2 df, fr.supplier_award_count = df.length) ∧
    (∀ (df : List MergedV3) (i : ℕ) (r : MergedV3), df[i]? = some r →
      ∃ fr, (engineer_features_v3 df)[i]? = some fr ∧
        fr.supplier_award_count
          = if r.idCell = Scalar.missing then 1
            else (df.filter (fun x => decide (MergedV3.idCell x = r.idCell))).length) ∧
    (∀ (df : List MergedV3) (k : Scalar), k ≠ Scalar.missing →
      (∀ r ∈ df, MergedV3.idCell r = k) →
      ∀ fr ∈ engineer_features_v3 df, fr.supplier_award_count = df.length) := by
  refine ⟨?_, ?_, ?_, ?_⟩
  · intro df i r hr
    refine ⟨featV2 df r, ?_, rfl⟩
    rw [engineer_features_v2, List.getElem?_map, hr, Option.map_some']
  · intro df k hk hall fr hfr
    obtain ⟨r, hr, rfl⟩ := List.mem_map.mp hfr
    have hfil : df.filter (fun x => decide (MergedV2.nameCell x = MergedV2.nameCell r)) = df :=
      List.filter_eq_self.mpr (fun x hx => by simp [hall x hx, hall r hr])
    show supplier_award_count_v2 df r.nameCell = df.length
    unfold supplier_award_count_v2
    rw [if_neg (by rw [hall r hr]; exact hk), hfil]
  · intro df i r hr
    refine ⟨featV3 df r, ?_, rfl⟩
    rw [engineer_features_v3, List.getElem?_map, hr, Option.map_some']
  · intro df k hk hall fr hfr
    obtain ⟨r, hr, rfl⟩ := List.mem_map.mp hfr
    have hfil : df.filter (fun x => decide (MergedV3.idCell x = MergedV3.idCell r)) = df :=
      List.filter_eq_self.mpr (fun x hx => by simp [hall x hx, hall r hr])
    show supplier_award_count_v3 df r.idCell = df.length
    unfold supplier_award_count_v3
    rw [if_neg (by rw [hall r hr]; exact hk), hfil]

/-- Witness for C2: a three-row v3 population sharing one supplier
fingerprint, its first feature row reporting count 3. -/
theorem C2_supplier_award_count_witness :
    (featV3
      [⟨⟨Scalar.str "a", Scalar.str "open"⟩, ⟨Scalar.str "a", Scalar.num 10⟩, none,
         some ⟨Scalar.str "a", Scalar.str "S1", Scalar.str "Acme"⟩⟩,
       ⟨⟨Scalar.str "b", Scalar.str "direct"⟩, ⟨Scalar.str "b", Scalar.num 20⟩, none,
         some ⟨Scalar.str "b", Scalar.str "S1", Scalar.str "ACME"⟩⟩,
       ⟨⟨Scalar.str "c", Scalar.str "open"⟩, ⟨Scalar.str "c", Scalar.num 30⟩, none,
         some ⟨Scalar.str "c", Scalar.str "S1", Scalar.str "Acme Ltd"⟩⟩]
      ⟨⟨Scalar.str "a", Scalar.str "open"⟩, ⟨Scalar.str "a", Scalar.num 10⟩, none,
         some ⟨Scalar.str "a", Scalar.str "S1", Scalar.str "Acme"⟩⟩).supplier_award_count = 3 :=
  C2_supplier_award_count.2.2.2 _ (Scalar.str "S1") (by decide) (by decide) _
    (List.mem_map_of_mem _ (by decide))

/-- Counterexample for C3: a negative numeric cell (e.g. a negative
value_amount) passes through clean_currency unchanged, so the result is not a
non-negative float as claimed. -/
theorem C3_counterexample :
    clean_currency (Scalar.num (-1000)) = -1000 ∧
      clean_currency (Scalar.num (-1000)) < 0 := by
  refine ⟨rfl, by norm_num [clean_currency]⟩

/-- C3 amended: clean_currency is total with missing mapped to 0, numeric
input passed through unchanged (sign preserved, so the result can be
negative), and string input parsed as a float after stripping the KES marker,
commas and spaces, any parse failure yielding 0. -/
theorem C3_amended :
    clean_currency Scalar.missing = 0 ∧
    (∀ q : ℚ, clean_currency (Scalar.num q) = q) ∧
    (∀ s : String, parseFloat (stripSeps (stripKES s.data)) = none →
      clean_currency (Scalar.str s) = 0) ∧
    (∀ (s : String) (q : ℚ), parseFloat (stripSeps (stripKES s.data)) = some q →
      clean_currency (Scalar.str s) = q) ∧
    clean_currency (Scalar.str "KES 1,000,000") = 1000000 := by
  refine ⟨rfl, fun q => rfl, ?_, ?_, by decide⟩
  · intro s h
    simp [clean_currency, h]
  · intro s q h
    simp [clean_currency, h]

/-- Witness for C3 amended: an unparseable string degrades to 0 and a
well-formed currency string parses through the failure-free branch. -/
theorem C3_amended_witness :
    clean_currency (Scalar.str "garbage") = 0 ∧
      clean_currency (Scalar.str "KES 2,500") = 2500 :=
  ⟨C3_amended.2.2.1 "garbage" (by decide),
   C3_amended.2.2.2.1 "KES 2,500" 2500 (by decide)⟩

/-- Counterexample for C4: no version's persisted column list contains a
risk score column (under either naming convention), while the amount column,
which is not one of the red-flag indicators, is present; so the claimed
schema (indicators plus riskScore plus riskLabel) is wrong. -/
theorem C4_counterexample :
    "risk_score" ∉ final_features_v1 ∧ "risk_score" ∉ final_features_v2 ∧
      "risk_score" ∉ output_columns_v3 ∧ "riskScore" ∉ final_features_v1 ∧
      "riskScore" ∉ final_features_v2 ∧ "riskScore" ∉ output_columns_v3 ∧
      "amount" ∈ final_features_v1 := by
  decide

/-- C4 amended: each version writes one output row per contract; the
persisted columns are the amount, the version's red-flag indicators and
risk_label (risk_score is computed but not persisted), and v3 additionally
appends the resolved supplier id and display name; risk_label is binary. -/
theorem C4_amended :
    (∀ df : List MergedV1, (engineer_features df).length = df.length) ∧
    (∀ df : List MergedV2, (engineer_features_v2 df).length = df.length) ∧
    (∀ df : List MergedV3, (engineer_features_v3 df).length = df.length) ∧
    final_features_v1 = ["amount", "is_direct_procurement", "is_round_amount",
      "missing_data_count", "risk_label"] ∧
    final_features_v2 = ["amount", "is_direct_procurement", "is_round_amount",
      "suspicious_timing", "supplier_award_count", "new_supplier_direct_deal",
      "risk_label"] ∧
    output_columns_v3 = final_features_v3 ++ ["supplier_id", "supplier_name"] ∧
    "risk_score" ∉ final_features_v1 ∧ "risk_score" ∉ final_features_v2 ∧
    "risk_score" ∉ output_columns_v3 ∧
    (∀ df : List MergedV1, ∀ fr ∈ engineer_features df,
      fr.risk_label = 0 ∨ fr.risk_label = 1) ∧
    (∀ df : List MergedV2, ∀ fr ∈ engineer_features_v2 df,
      fr.risk_label = 0 ∨ fr.risk_label = 1) ∧
    (∀ df : List MergedV3, ∀ fr ∈ engineer_features_v3 df,
      fr.risk_label = 0 ∨ fr.risk_label = 1) := by
  refine ⟨fun df => List.length_map df _, fun df => List.length_map df _,
    fun df => List.length_map df _, rfl, rfl, rfl, by decide, by decide, by decide,
    ?_, ?_, ?_⟩
  · intro df fr hfr
    obtain ⟨r, hr, rfl⟩ := List.mem_map.mp hfr
    exact risk_label_of_binary 1.5 _
  · intro df fr hfr
    obtain ⟨r, hr, rfl⟩ := List.mem_map.mp hfr
    exact risk_label_of_binary 2.0 _
  · intro df fr hfr
    obtain ⟨r, hr, rfl⟩ := List.mem_map.mp hfr
    exact risk_label_of_binary 2.0 _

/-- Witness for C4 amended: one-row table lengths and a concrete binary
label. -/
theorem C4_amended_witness :
    (engineer_features [⟨Scalar.str "a", Scalar.str "open", Scalar.str "a",
        Scalar.num 10⟩]).length = 1 ∧
      ((featV1 ⟨Scalar.str "a", Scalar.str "open", Scalar.str "a",
          Scalar.num 10⟩).risk_label = 0 ∨
        (featV1 ⟨Scalar.str "a", Scalar.str "open", Scalar.str "a",
          Scalar.num 10⟩).risk_label = 1) :=
  ⟨C4_amended.1 [⟨Scalar.str "a", Scalar.str "open", Scalar.str "a", Scalar.num 10⟩],
   C4_amended.2.2.2.2.2.2.2.2.2.1
     [⟨Scalar.str "a", Scalar.str "open", Scalar.str "a", Scalar.num 10⟩] _
     (by simp [engineer_features])⟩

/-- C7: the source-loader deduplication keeps exactly the first-encountered
row per join-key value (a surviving row is precisely the first row of the
input, in file order, carrying its key), and it is idempotent. -/
theorem C7_dedup_first {α : Type} (key : α → Scalar) (l : List α) (r : α) :
    (r ∈ dedupFirst key l ↔ l.find? (fun a => decide (key a = key r)) = some r) ∧
      dedupFirst key (dedupFirst key l) = dedupFirst key l :=
  ⟨mem_dedupFirst key l r, dedupFirst_idem key l⟩

/-- C5: the v2 linked record set is the inner join of the tender table with
the deduplicated award table on the link keys — every output row pairs a
tender row with an award row of matching key, so a contract with no matching
award never appears — the output row count equals that inner-join
cardinality, and the timing and supplier columns are left-joined, null-filled
(NaN-reading) when no match exists. -/
theorem C5_linkage (mains : List MainRow) (awards : List AwardRow)
    (contracts : List ContractRow) (suppliers : List SupplierRow) :
    (∀ r ∈ load_and_merge_v2 mains awards contracts suppliers,
      r.main ∈ mains ∧ r.award ∈ awards ∧ r.award.link_main = r.main.link) ∧
    (load_and_merge_v2 mains awards contracts suppliers).length
      = (innerJoin MainRow.link AwardRow.link_main mains
          (dedupFirst AwardRow.link_main awards)).length ∧
    (∀ r ∈ load_and_merge_v2 mains awards contracts suppliers,
      (∀ c ∈ contracts, c.link_main ≠ r.award.link_main) →
        r.timing = none ∧ r.dateSignedCell = Scalar.missing ∧
          r.startCell = Scalar.missing) ∧
    (∀ r ∈ load_and_merge_v2 mains awards contracts suppliers,
      (∀ s ∈ suppliers, s.link_main ≠ r.award.link_main) →
        r.supplier = none ∧ r.nameCell = Scalar.missing) := by
  refine ⟨?_, ?_, ?_, ?_⟩
  · intro r hr
    unfold load_and_merge_v2 at hr
    obtain ⟨p, hp, rfl⟩ := List.mem_map.mp hr
    have hp1 := leftJoin_fst_mem _ _ _ _ p hp
    have hp11 := leftJoin_fst_mem _ _ _ _ p.1 hp1
    have hinner := (mem_innerJoin _ _ _ _ p.1.1).mp hp11
    exact ⟨hinner.1, dedupFirst_subset _ _ hinner.2.1, hinner.2.2⟩
  · unfold load_and_merge_v2
    rw [List.length_map,
      leftJoin_length _ _ _ _ (dedupFirst_keys_nodup SupplierRow.link_main _),
      leftJoin_length _ _ _ _ (dedupFirst_keys_nodup ContractRow.link_main _)]
  · intro r hr hnc
    unfold load_and_merge_v2 at hr
    obtain ⟨p, hp, rfl⟩ := List.mem_map.mp hr
    have hp1 := leftJoin_fst_mem _ _ _ _ p hp
    have hnone : p.1.2 = none :=
      (mem_leftJoin_snd _ _ _ _ p.1 hp1).2
        (fun c hc => hnc c (dedupFirst_subset _ _ hc))
    exact ⟨hnone, by simp [MergedV2.dateSignedCell, hnone],
      by simp [MergedV2.startCell, hnone]⟩
  · intro r hr hns
    unfold load_and_merge_v2 at hr
    obtain ⟨p, hp, rfl⟩ := List.mem_map.mp hr
    have hnone : p.2 = none :=
      (mem_leftJoin_snd _ _ _ _ p hp).2
        (fun b hb => by
          have hb2 : b ∈ suppliers.map normSupplierRow := dedupFirst_subset _ _ hb
          obtain ⟨s, hs, rfl⟩ := List.mem_map.mp hb2
          exact hns s hs)
    exact ⟨hnone, by simp [MergedV2.nameCell, hnone]⟩

/-- Witness for C5: a one-tender, one-award population with empty timing and
supplier tables; the join cardinality agrees and the unmatched timing columns
read as NaN. -/
theorem C5_linkage_witness :
    (load_and_merge_v2 [⟨Scalar.str "a", Scalar.str "open"⟩]
        [⟨Scalar.str "a", Scalar.num 10⟩] [] []).length
      = (innerJoin MainRow.link AwardRow.link_main
          [⟨Scalar.str "a", Scalar.str "open"⟩]
          (dedupFirst AwardRow.link_main [⟨Scalar.str "a", Scalar.num 10⟩])).length ∧
    ((⟨⟨Scalar.str "a", Scalar.str "open"⟩, ⟨Scalar.str "a", Scalar.num 10⟩,
        none, none⟩ : MergedV2).timing = none ∧
      (⟨⟨Scalar.str "a", Scalar.str "open"⟩, ⟨Scalar.str "a", Scalar.num 10⟩,
        none, none⟩ : MergedV2).dateSignedCell = Scalar.missing ∧
      (⟨⟨Scalar.str "a", Scalar.str "open"⟩, ⟨Scalar.str "a", Scalar.num 10⟩,
        none, none⟩ : MergedV2).startCell = Scalar.missing) :=
  ⟨(C5_linkage [⟨Scalar.str "a", Scalar.str "open"⟩] [⟨Scalar.str "a", Scalar.num 10⟩]
      [] []).2.1,
   (C5_linkage [⟨Scalar.str "a", Scalar.str "open"⟩] [⟨Scalar.str "a", Scalar.num 10⟩]
      [] []).2.2.1
     ⟨⟨Scalar.str "a", Scalar.str "open"⟩, ⟨Scalar.str "a", Scalar.num 10⟩, none, none⟩
     (by decide) (by decide)⟩

/-- C8: the v1 run is all-or-nothing — the output table exists exactly when
both input files are present and carry their required columns (load-level
success); a missing file or absent column yields no output at all, while the
contents of individual cells (however malformed) can never prevent the
output from being produced, since cell parse failures only degrade to safe
defaults inside engineer_features. -/
theorem C8_all_or_nothing (mainFile awardsFile : Option Csv) :
    (main_v1 mainFile awardsFile).isSome = true ↔
      (∃ tm, mainFile = some tm ∧ "_link" ∈ tm.header ∧
        "tender_procurementMethod" ∈ tm.header) ∧
      (∃ ta, awardsFile = some ta ∧ "_link_main" ∈ ta.header ∧
        "value_amount" ∈ ta.header) := by
  cases mainFile with
  | none =>
    cases awardsFile with
    | none => simp [main_v1, load_and_merge, read_csv]
    | some ta => simp [main_v1, load_and_merge, read_csv]
  | some tm =>
    have e1 : (["_link", "tender_procurementMethod"].all
          (fun c => decide (c ∈ tm.header)) = true)
        ↔ ("_link" ∈ tm.header ∧ "tender_procurementMethod" ∈ tm.header) := by
      simp
    cases awardsFile with
    | none =>
      by_cases h1 : "_link" ∈ tm.header ∧ "tender_procurementMethod" ∈ tm.header
      · simp only [main_v1, load_and_merge, read_csv, if_pos (e1.mpr h1)]
        simp
      · simp only [main_v1, load_and_merge, read_csv,
          if_neg (fun hc => h1 (e1.mp hc))]
        simp
    | some ta =>
      have e2 : (["_link_main", "value_amount"].all
            (fun c => decide (c ∈ ta.header)) = true)
          ↔ ("_link_main" ∈ ta.header ∧ "value_amount" ∈ ta.header) := by
        simp
      by_cases h1 : "_link" ∈ tm.header ∧ "tender_procurementMethod" ∈ tm.header
      · by_cases h2 : "_link_main" ∈ ta.header ∧ "value_amount" ∈ ta.header
        · simp only [main_v1, load_and_merge, read_csv, if_pos (e1.mpr h1),
            if_pos (e2.mpr h2)]
          simp [h1, h2]
        · simp only [main_v1, load_and_merge, read_csv, if_pos (e1.mpr h1),
            if_neg (fun hc => h2 (e2.mp hc))]
          simp [h2]
      · by_cases h2 : "_link_main" ∈ ta.header ∧ "value_amount" ∈ ta.header
        · simp only [main_v1, load_and_merge, read_csv,
            if_neg (fun hc => h1 (e1.mp hc)), if_pos (e2.mpr h2)]
          simp [h1]
        · simp only [main_v1, load_and_merge, read_csv,
            if_neg (fun hc => h1 (e1.mp hc)),
            if_neg (fun hc => h2 (e2.mp hc))]
          simp [h1]
